import Mathlib

/-!
Verification of the JSON-RPC bridge of codex-desktop
(`src-tauri/src/app_server/process.rs`, `src-tauri/src/error.rs`,
`src-tauri/src/state.rs`).

The definitions below are a shallow embedding of the bridge: JSON values
are a plain inductive, the subprocess streams become explicit line lists,
the `pending_requests` hash map becomes an association list whose keys are
call ids, and each `oneshot` channel is represented by a caller token plus
an `alive` flag recording whether the receiving end still exists.
-/

namespace CodexDesktop

/-- A JSON value, standing for `serde_json::Value`. -/
inductive Json where
  | null
  | bool (b : Bool)
  | num (n : Int)
  | str (s : String)
  | arr (elems : List Json)
  | obj (fields : List (String × Json))
deriving Repr

/-- Compact rendering of a JSON value, mirroring `serde_json::to_string`
(object fields rendered in list order, no added whitespace). -/
def Json.render : Json → String
  | .null => "null"
  | .bool true => "true"
  | .bool false => "false"
  | .num n => toString n
  | .str s => "\"" ++ s ++ "\""
  | .arr elems => "[" ++ renderElems elems ++ "]"
  | .obj fields => "\x7b" ++ renderFields fields ++ "\x7d"
where
  renderElems : List Json → String
    | [] => ""
    | [x] => x.render
    | x :: y :: rest => x.render ++ "," ++ renderElems (y :: rest)
  renderFields : List (String × Json) → String
    | [] => ""
    | [(k, v)] => "\"" ++ k ++ "\":" ++ v.render
    | (k, v) :: f :: rest => "\"" ++ k ++ "\":" ++ v.render ++ "," ++ renderFields (f :: rest)

/-- `JsonRpcError` from process.rs: `code`, `message`, optional `data`. -/
structure JsonRpcError where
  code : Int
  message : String
  data : Option Json
deriving Repr

/-- `JsonRpcMessage` from process.rs: the deserialized shape of one inbound
line; every field is optional, exactly as in the Rust struct. -/
structure JsonRpcMessage where
  id : Option Nat
  result : Option Json
  error : Option JsonRpcError
  method : Option String
  params : Option Json
deriving Repr

/-- `CodexErrorType` from error.rs. -/
inductive CodexErrorType where
  | ContextWindowExceeded
  | UsageLimitExceeded
  | HttpConnectionFailed
  | InternalServerError
  | Unauthorized
  | BadRequest
  | SandboxError
  | Other
deriving DecidableEq, Repr

/-- `CodexErrorInfo` from error.rs. -/
structure CodexErrorInfo where
  errorType : CodexErrorType
  httpStatusCode : Option Nat
deriving DecidableEq, Repr

/-- The application-wide `Error` enum from error.rs.  Variants whose payload
is a foreign error type (`rusqlite::Error`, `std::io::Error`,
`serde_json::Error`) carry the rendered message string. -/
inductive Error where
  | Database (msg : String)
  | Io (msg : String)
  | Json (msg : String)
  | AppServer (msg : String)
  | Codex (message : String) (info : Option CodexErrorInfo)
  | ProjectNotFound (msg : String)
  | SessionNotFound (msg : String)
  | SnapshotNotFound (msg : String)
  | InvalidPath (msg : String)
  | Git (msg : String)
  | Tauri (msg : String)
  | Other (msg : String)
deriving DecidableEq, Repr

/-- The name of the `Error` variant a value was built with; used to state
which constructor of the error enum a code path produces. -/
def errName : Error → String
  | .Database _ => "Database"
  | .Io _ => "Io"
  | .Json _ => "Json"
  | .AppServer _ => "AppServer"
  | .Codex _ _ => "Codex"
  | .ProjectNotFound _ => "ProjectNotFound"
  | .SessionNotFound _ => "SessionNotFound"
  | .SnapshotNotFound _ => "SnapshotNotFound"
  | .InvalidPath _ => "InvalidPath"
  | .Git _ => "Git"
  | .Tauri _ => "Tauri"
  | .Other _ => "Other"

/-- One entry of the `pending_requests` map: the call id (the map key), a
token naming the caller's `oneshot` channel, and whether the receiving half
of that channel still exists (`false` once the caller has returned). -/
structure PendingEntry where
  callId : Nat
  tok : Nat
  alive : Bool
deriving DecidableEq, Repr

/-- The `pending_requests` map, as an association list keyed by `callId`. -/
abbrev PendingMap := List PendingEntry

/-- The keys of the pending map are pairwise distinct — the `HashMap`
representation invariant. -/
def keysNoDup (p : PendingMap) : Prop := (p.map PendingEntry.callId).Nodup

instance (p : PendingMap) : Decidable (keysNoDup p) := by
  unfold keysNoDup; infer_instance

/-- `HashMap::remove(&id)`: take out the entry keyed `id`, returning it and
the remaining map, or `none` when no such key exists. -/
def PendingMap.removeEntry : PendingMap → Nat → Option (PendingEntry × PendingMap)
  | [], _ => none
  | e :: rest, i =>
    if e.callId = i then some (e, rest)
    else
      match PendingMap.removeEntry rest i with
      | some (f, rest') => some (f, e :: rest')
      | none => none

/-- `HashMap::insert(id, tx)`: replace the entry with the same key if one
exists, otherwise add the new entry. -/
def PendingMap.insertEntry (p : PendingMap) (e : PendingEntry) : PendingMap :=
  if p.any (fun f => f.callId = e.callId) then
    p.map (fun f => if f.callId = e.callId then e else f)
  else p ++ [e]

/-- Dropping the receiver of the `oneshot` channel for `id` (what happens
implicitly when `send_request` returns without consuming the channel). -/
def PendingMap.markDead (p : PendingMap) (i : Nat) : PendingMap :=
  p.map (fun e => if e.callId = i then { e with alive := false } else e)

/-- A completed call as observed by a caller: the channel token of the
caller and the `Result<JsonValue>` value sent into its channel.  A send on a
channel whose receiver is gone delivers nothing, so such sends never appear
as completions. -/
structure Completion where
  tok : Nat
  outcome : Except Error Json
deriving Repr

/-- The error text built in the response branch of `handle_message`:
`format!("JSON-RPC error {}: {}", error.code, error.message)`. -/
def rpcErrorText (e : JsonRpcError) : String :=
  "JSON-RPC error " ++ toString e.code ++ ": " ++ e.message

/-- The value sent into the pending channel in the response branch of
`handle_message`: the error object wins when present, otherwise the result
field, defaulting to JSON `null`. -/
def responseOutcome (m : JsonRpcMessage) : Except Error Json :=
  match m.error with
  | some err => .error (.AppServer (rpcErrorText err))
  | none => .ok (m.result.getD .null)

/-- `method.replace('/', "-")` from handle_message: since the replacement
is the single character `-`, the replacement is exactly a character map. -/
def mapSlashDash (s : String) : String :=
  String.mk (s.data.map (fun c => if c = '/' then '-' else c))

/-- `serde_json::Map::insert`: replace the value of an existing key, or
append the binding. -/
def objInsert (fields : List (String × Json)) (k : String) (v : Json) :
    List (String × Json) :=
  if fields.any (fun kv => kv.1 = k) then
    fields.map (fun kv => if kv.1 = k then (k, v) else kv)
  else fields ++ [(k, v)]

/-- `AppServerProcess::handle_message`, acting on the parse outcome of one
inbound line (`none` = `serde_json::from_str` failed).  Returns the pending
map afterwards, the completion delivered to a caller (if any), and the
event emitted to the UI (if any).  Dispatch follows the Rust `match` on
`(id, method, result, error)` exactly:
response / server request / notification / malformed fallthrough. -/
def handle_message (parsed : Option JsonRpcMessage) (pending : PendingMap) :
    PendingMap × Option Completion × Option (String × Json) :=
  match parsed with
  | none => (pending, none, none)
  | some m =>
    match m.id, m.method with
    | some i, none =>
      match PendingMap.removeEntry pending i with
      | some (e, rest) =>
        (rest, if e.alive then some ⟨e.tok, responseOutcome m⟩ else none, none)
      | none => (pending, none, none)
    | some i, some meth =>
      let eventName := mapSlashDash meth
      let payload :=
        match m.params.getD (Json.obj []) with
        | Json.obj fields => Json.obj (objInsert fields "_requestId" (Json.num i))
        | other => other
      (pending, none, some (eventName, payload))
    | none, some meth =>
      (pending, none, some (mapSlashDash meth, m.params.getD .null))
    | none, none => (pending, none, none)

/-- One step of input to the stdout reader task: a line (with its parse
outcome), end of stream, or a read error. -/
inductive StdoutItem where
  | line (parsed : Option JsonRpcMessage)
  | eof
  | readErr
deriving Repr

/-- The accumulated observable behaviour of the stdout reader task. -/
structure LoopResult where
  pending : PendingMap
  completions : List Completion
  events : List (String × Json)
deriving Repr

/-- The stdout reader loop spawned in `AppServerProcess::spawn`: handle each
line; on EOF emit the `app-server-disconnected` event and break; on a read
error log and break.  An exhausted input list models the shutdown signal
winning the `select!`. -/
def runReader : List StdoutItem → PendingMap → LoopResult
  | [], p => ⟨p, [], []⟩
  | .line l :: rest, p =>
    match handle_message l p with
    | (p', c, ev) =>
      let r := runReader rest p'
      ⟨r.pending, c.toList ++ r.completions, ev.toList ++ r.events⟩
  | .eof :: _, p => ⟨p, [], [("app-server-disconnected", Json.null)]⟩
  | .readErr :: _, p => ⟨p, [], []⟩

/-- `2 ^ 64`, the modulus of the `AtomicU64` request counter. -/
def u64Mod : Nat := 2 ^ 64

/-- The state of one `AppServerProcess`: the request counter, the pending
map, the shutdown channel sender (`none` once taken), the lines written to
the subprocess stdin, and whether stdin was shut down. -/
structure Supervisor where
  requestCounter : Nat
  pending : PendingMap
  shutdownTx : Option Unit
  stdinLines : List String
  stdinClosed : Bool
deriving Repr

/-- The line written for `JsonRpcRequest { id, method, params }` followed by
the pushed newline; `paramsJson` is the already-serialized params. -/
def requestLine (i : Nat) (method : String) (paramsJson : String) : String :=
  "\x7b\"id\":" ++ toString i ++ ",\"method\":\"" ++ method ++ "\",\"params\":"
    ++ paramsJson ++ "\x7d\n"

/-- The line written for `JsonRpcNotification { method, params }`. -/
def notificationLine (method : String) (paramsJson : String) : String :=
  "\x7b\"method\":\"" ++ method ++ "\",\"params\":" ++ paramsJson ++ "\x7d\n"

/-- The line written for `JsonRpcResponseMsg { id, result }` in
`send_response` (struct fields serialize in declaration order: id, result). -/
def responseLine (requestId : Nat) (result : Json) : String :=
  "\x7b\"id\":" ++ toString requestId ++ ",\"result\":" ++ result.render ++ "\x7d\n"

/-- How one `send_request` call turns out, resolving the code's await
points: the stdin write fails, the flush fails, the 30-second timeout
elapses with no response, or the reader completed the call with `r`. -/
inductive SendOutcome where
  | writeFail (msg : String)
  | flushFail (msg : String)
  | timeout
  | responded (r : Except Error Json)

/-- `AppServerProcess::send_request`: allocate the id (`fetch_add`),
serialize the line, register the pending entry, write+flush, then await the
response racing the 30-second timeout.  On every early return the caller's
receiver is dropped, which the model records with `markDead`; no code path
of `send_request` removes the entry from the map itself.  `responded r`
models the reader task having already removed the entry and sent `r`. -/
def send_request (sup : Supervisor) (method : String) (paramsJson : String)
    (tok : Nat) (outcome : SendOutcome) : Supervisor × Except Error Json :=
  let i := sup.requestCounter
  let counter' := (sup.requestCounter + 1) % u64Mod
  let line := requestLine i method paramsJson
  let registered := sup.pending.insertEntry ⟨i, tok, true⟩
  match outcome with
  | .writeFail msg =>
    ({ sup with requestCounter := counter',
                pending := registered.markDead i },
     .error (.AppServer ("Failed to write to stdin: " ++ msg)))
  | .flushFail msg =>
    ({ sup with requestCounter := counter',
                pending := registered.markDead i,
                stdinLines := sup.stdinLines ++ [line] },
     .error (.AppServer ("Failed to flush stdin: " ++ msg)))
  | .timeout =>
    ({ sup with requestCounter := counter',
                pending := registered.markDead i,
                stdinLines := sup.stdinLines ++ [line] },
     .error (.AppServer "Request timeout"))
  | .responded r =>
    ({ sup with requestCounter := counter',
                pending := (PendingMap.removeEntry registered i).elim registered Prod.snd,
                stdinLines := sup.stdinLines ++ [line] },
     r)

/-- How a plain stdin write+flush turns out. -/
inductive WriteOutcome where
  | ok
  | writeFail (msg : String)
  | flushFail (msg : String)

/-- `AppServerProcess::send_response`: serialize
`{"id": request_id, "result": result}`, push a newline, write and flush. -/
def send_response (sup : Supervisor) (requestId : Nat) (result : Json)
    (w : WriteOutcome) : Supervisor × Except Error Unit :=
  match w with
  | .writeFail msg => (sup, .error (.AppServer ("Failed to write to stdin: " ++ msg)))
  | .flushFail msg =>
    ({ sup with stdinLines := sup.stdinLines ++ [responseLine requestId result] },
     .error (.AppServer ("Failed to flush stdin: " ++ msg)))
  | .ok =>
    ({ sup with stdinLines := sup.stdinLines ++ [responseLine requestId result] },
     .ok ())

/-- `AppServerProcess::send_notification`. -/
def sendNotify (sup : Supervisor) (method : String) (paramsJson : String)
    (w : WriteOutcome) : Supervisor × Except Error Unit :=
  match w with
  | .writeFail msg => (sup, .error (.AppServer ("Failed to write to stdin: " ++ msg)))
  | .flushFail msg =>
    ({ sup with stdinLines := sup.stdinLines ++ [notificationLine method paramsJson] },
     .error (.AppServer ("Failed to flush stdin: " ++ msg)))
  | .ok =>
    ({ sup with stdinLines := sup.stdinLines ++ [notificationLine method paramsJson] },
     .ok ())

/-- The observable outcome of one `AppServerProcess::shutdown` call. -/
structure ShutdownResult where
  signaledReader : Bool
  stdinShut : Bool
  killed : Bool
  ret : Except Error Unit
deriving Repr

/-- `AppServerProcess::shutdown`: take and use the shutdown sender if still
present, shut stdin down, then race the child's exit against the 2-second
sleep; kill on expiry.  `exitsWithinGrace` says which `select!` branch wins.
The function's Rust return type is `Result<()>` and both branches end in
`Ok(())`; the pending map is never touched. -/
def shutdown (sup : Supervisor) (exitsWithinGrace : Bool) :
    Supervisor × ShutdownResult :=
  let signaled := sup.shutdownTx.isSome
  let sup' := { sup with shutdownTx := none, stdinClosed := true }
  if exitsWithinGrace then (sup', ⟨signaled, true, false, .ok ()⟩)
  else (sup', ⟨signaled, true, true, .ok ()⟩)

/-- The host environment `find_codex_binary` consults: the result of
`which::which("codex")`, the home directory, and which paths exist. -/
structure Env where
  whichCodex : Option String
  homeDir : Option String
  pathExists : String → Bool

/-- The `common_paths` array of `find_codex_binary`. -/
def commonPaths (home : String) : List String :=
  [home ++ "/.cargo/bin/codex", home ++ "/.local/bin/codex",
   "/usr/local/bin/codex", "/opt/homebrew/bin/codex"]

/-- `AppServerProcess::find_codex_binary`: PATH lookup first, then the
common installation locations, else the `AppServer` "not found" error. -/
def find_codex_binary (env : Env) : Except Error String :=
  match env.whichCodex with
  | some p => .ok p
  | none =>
    match env.homeDir with
    | none => .error (.Other "Cannot find home directory")
    | some home =>
      match (commonPaths home).find? env.pathExists with
      | some p => .ok p
      | none => .error (.AppServer "Codex CLI not found. Please install it first.")

/-- The executable-resolution and OS-spawn prefix of
`AppServerProcess::spawn`: locate the binary, then attempt the OS spawn
(`osErr` is the OS error message when `Command::spawn` fails). -/
def spawnExe (env : Env) (osErr : Option String) : Except Error String :=
  match find_codex_binary env with
  | .error e => .error e
  | .ok p =>
    match osErr with
    | some msg => .error (.AppServer ("Failed to spawn app-server: " ++ msg))
    | none => .ok p

/-- `AppServerProcess::spawn` end to end: resolve and spawn the binary,
then run the handshake — a `send_request` of `"initialize"` on the fresh
supervisor followed by the `"initialized"` notification; any failure makes
the whole spawn fail, so no `AppServerProcess` value exists before the
handshake has succeeded. -/
def spawnModel (env : Env) (osErr : Option String) (handshake : SendOutcome)
    (notifyW : WriteOutcome) : Except Error Supervisor :=
  match spawnExe env osErr with
  | .error e => .error e
  | .ok _ =>
    let sup0 : Supervisor := ⟨1, [], some (), [], false⟩
    match send_request sup0 "initialize" (Json.obj []).render 0 handshake with
    | (_, .error e) => .error e
    | (sup1, .ok _) =>
      match sendNotify sup1 "initialized" (Json.obj []).render notifyW with
      | (_, .error e) => .error e
      | (sup2, .ok _) => .ok sup2

/-- `AppState::start_app_server`: spawn only when no process is stored, and
store it only on success. -/
def start_app_server (st : Option Supervisor) (spawned : Except Error Supervisor) :
    Option Supervisor × Except Error Unit :=
  match st with
  | some sup => (some sup, .ok ())
  | none =>
    match spawned with
    | .ok sup => (some sup, .ok ())
    | .error e => (none, .error e)

/-- The command-layer pattern used by every Tauri command (e.g.
`get_account_info` in commands/app_server.rs): take the stored process or
fail with `AppServer("App server not running")`, then `send_request`. -/
def command_send_request (st : Option Supervisor) (method : String)
    (paramsJson : String) (tok : Nat) (outcome : SendOutcome) :
    Option Supervisor × Except Error Json :=
  match st with
  | none => (none, .error (.AppServer "App server not running"))
  | some sup =>
    let (sup', r) := send_request sup method paramsJson tok outcome
    (some sup', r)

/-! ## Registry lemmas -/

theorem removeEntry_some_spec (p : PendingMap) (i : Nat) (f : PendingEntry)
    (p' : PendingMap) (h : PendingMap.removeEntry p i = some (f, p')) :
    f.callId = i ∧ ∃ pre post, p = pre ++ f :: post ∧ p' = pre ++ post ∧
      ∀ e ∈ pre, e.callId ≠ i := by
  induction p generalizing p' with
  | nil => simp [PendingMap.removeEntry] at h
  | cons e rest ih =>
    by_cases hc : e.callId = i
    · simp only [PendingMap.removeEntry, if_pos hc, Option.some.injEq,
        Prod.mk.injEq] at h
      obtain ⟨rfl, rfl⟩ := h
      exact ⟨hc, [], rest, rfl, rfl, by simp⟩
    · simp only [PendingMap.removeEntry, if_neg hc] at h
      cases hrec : PendingMap.removeEntry rest i with
      | none => rw [hrec] at h; simp at h
      | some pr =>
        obtain ⟨g, rest'⟩ := pr
        rw [hrec] at h
        simp only [Option.some.injEq, Prod.mk.injEq] at h
        obtain ⟨rfl, rfl⟩ := h
        obtain ⟨hk, pre, post, hsplit, hrest, hpre⟩ := ih _ hrec
        refine ⟨hk, e :: pre, post, by simp [hsplit], by simp [hrest], ?_⟩
        intro x hx
        rcases List.mem_cons.mp hx with rfl | hx'
        · exact hc
        · exact hpre x hx'

theorem removeEntry_self (p : PendingMap) (e : PendingEntry)
    (hnd : keysNoDup p) (he : e ∈ p) :
    ∃ p', PendingMap.removeEntry p e.callId = some (e, p') := by
  induction p with
  | nil => cases he
  | cons f rest ih =>
    unfold keysNoDup at hnd
    simp only [List.map_cons, List.nodup_cons] at hnd
    rcases List.mem_cons.mp he with rfl | hmem
    · exact ⟨rest, by simp [PendingMap.removeEntry]⟩
    · have hne : f.callId ≠ e.callId := by
        intro hEq
        exact hnd.1 (hEq ▸ List.mem_map_of_mem PendingEntry.callId hmem)
      obtain ⟨p', hp'⟩ := ih hnd.2 hmem
      exact ⟨f :: p', by simp [PendingMap.removeEntry, if_neg hne, hp']⟩

theorem keysNoDup_removeEntry (p p' : PendingMap) (i : Nat) (f : PendingEntry)
    (h : PendingMap.removeEntry p i = some (f, p')) (hnd : keysNoDup p) :
    keysNoDup p' := by
  obtain ⟨-, pre, post, hsplit, hrest, -⟩ := removeEntry_some_spec p i f p' h
  subst hsplit; subst hrest
  unfold keysNoDup at hnd ⊢
  exact ((List.sublist_cons_self f post).append_left pre).map PendingEntry.callId
    |>.nodup hnd

theorem mem_removeEntry (p p' : PendingMap) (i : Nat) (f e : PendingEntry)
    (h : PendingMap.removeEntry p i = some (f, p')) (he : e ∈ p)
    (hne : e.callId ≠ i) : e ∈ p' := by
  obtain ⟨hk, pre, post, hsplit, hrest, -⟩ := removeEntry_some_spec p i f p' h
  subst hsplit; subst hrest
  rcases List.mem_append.mp he with hx | hx
  · exact List.mem_append.mpr (Or.inl hx)
  · rcases List.mem_cons.mp hx with rfl | hx'
    · exact absurd hk hne
    · exact List.mem_append.mpr (Or.inr hx')

theorem keys_map_replace (p : PendingMap) (e : PendingEntry) :
    (p.map (fun f => if f.callId = e.callId then e else f)).map PendingEntry.callId
      = p.map PendingEntry.callId := by
  induction p with
  | nil => rfl
  | cons f rest ih =>
    simp only [List.map_cons, ih]
    by_cases hf : f.callId = e.callId
    · simp [hf]
    · simp [hf]

theorem keysNoDup_insertEntry (p : PendingMap) (e : PendingEntry)
    (hnd : keysNoDup p) : keysNoDup (p.insertEntry e) := by
  unfold PendingMap.insertEntry
  by_cases hc : p.any (fun f => f.callId = e.callId)
  · rw [if_pos hc]
    unfold keysNoDup
    rw [keys_map_replace]
    exact hnd
  · rw [if_neg hc]
    unfold keysNoDup
    rw [List.map_append]
    have hnotin : e.callId ∉ p.map PendingEntry.callId := by
      intro hin
      obtain ⟨f, hf, hfe⟩ := List.mem_map.mp hin
      exact hc (List.any_eq_true.mpr ⟨f, hf, by simp [hfe]⟩)
    refine List.Nodup.append hnd (List.nodup_singleton _) ?_
    intro a ha hb
    simp only [List.map_cons, List.map_nil, List.mem_singleton] at hb
    exact hnotin (hb ▸ ha)

/-! ## Reader-loop lemmas -/

/-- Whether a parsed line is a response addressed to call id `i` (the only
line shape that can touch the pending entry for `i`). -/
def lineTargets (i : Nat) : Option JsonRpcMessage → Bool
  | some m =>
    match m.id, m.method with
    | some j, none => j == i
    | _, _ => false
  | none => false

/-- Whether a reader input item keeps the loop running and leaves the
pending entry for `i` in place. -/
def sparesId (i : Nat) : StdoutItem → Bool
  | .line l => !(lineTargets i l)
  | .eof => false
  | .readErr => false

theorem handle_message_spares (l : Option JsonRpcMessage) (p : PendingMap)
    (e : PendingEntry) (he : e ∈ p) (hnd : keysNoDup p)
    (hl : lineTargets e.callId l = false) :
    e ∈ (handle_message l p).1 ∧ keysNoDup (handle_message l p).1 := by
  cases l with
  | none => exact ⟨he, hnd⟩
  | some m =>
    obtain ⟨mid, mres, merr, mmeth, mpar⟩ := m
    cases mid with
    | none =>
      cases mmeth with
      | none => exact ⟨he, hnd⟩
      | some s => exact ⟨he, hnd⟩
    | some j =>
      cases mmeth with
      | some s => exact ⟨he, hnd⟩
      | none =>
        have hji : j ≠ e.callId := by
          simpa [lineTargets] using hl
        simp only [handle_message]
        cases hrem : PendingMap.removeEntry p j with
        | none => exact ⟨he, hnd⟩
        | some pr =>
          obtain ⟨f, rest⟩ := pr
          exact ⟨mem_removeEntry p rest j f e hrem he (fun hEq => hji hEq.symm),
                 keysNoDup_removeEntry p rest j f hrem hnd⟩

/-- Claim C1.  Id-based correlation is order-independent: run the reader
over any input list that splits as `pre ++ [response for the caller's id]
++ post`, where no item of `pre` ends the loop or is a response carrying
that same id.  Whatever the order and content of the surrounding traffic,
the caller's channel receives exactly the result or error carried by the
response line whose id equals its own call id. -/
theorem C1_id_correlation (pending : PendingMap) (e : PendingEntry)
    (pre post : List StdoutItem) (m : JsonRpcMessage)
    (hmem : e ∈ pending) (halive : e.alive = true) (hnd : keysNoDup pending)
    (hid : m.id = some e.callId) (hmeth : m.method = none)
    (hpre : pre.all (sparesId e.callId) = true) :
    Completion.mk e.tok (responseOutcome m) ∈
      (runReader (pre ++ StdoutItem.line (some m) :: post) pending).completions := by
  induction pre generalizing pending with
  | nil =>
    obtain ⟨p', hp'⟩ := removeEntry_self pending e hnd hmem
    obtain ⟨mid, mres, merr, mmeth, mpar⟩ := m
    simp only at hid hmeth
    subst hid; subst hmeth
    simp [List.nil_append, runReader, handle_message, hp', halive]
  | cons it pre' ih =>
    simp only [List.all_cons, Bool.and_eq_true] at hpre
    cases it with
    | eof => simp [sparesId] at hpre
    | readErr => simp [sparesId] at hpre
    | line l =>
      have hl : lineTargets e.callId l = false := by
        have := hpre.1
        simpa [sparesId] using this
      have hpres := handle_message_spares l pending e hmem hnd hl
      rw [List.cons_append]
      simp only [runReader]
      rcases hh : handle_message l pending with ⟨p1, c1, ev1⟩
      rw [hh] at hpres
      have hrec := ih p1 hpres.1 hpres.2 hpre.2
      exact List.mem_append.mpr (Or.inr hrec)

/-- Witness for C1: the spec's scenario — pending calls 5 and 6, responses
arriving as id 6 then id 5; the caller registered under id 5 receives the
value `"A"` addressed to id 5. -/
theorem C1_witness :
    Completion.mk 100 (responseOutcome ⟨some 5, some (Json.str "A"), none, none, none⟩) ∈
      (runReader
        [StdoutItem.line (some ⟨some 6, some (Json.str "B"), none, none, none⟩),
         StdoutItem.line (some ⟨some 5, some (Json.str "A"), none, none, none⟩)]
        [⟨5, 100, true⟩, ⟨6, 200, true⟩]).completions :=
  C1_id_correlation [⟨5, 100, true⟩, ⟨6, 200, true⟩] ⟨5, 100, true⟩
    [StdoutItem.line (some ⟨some 6, some (Json.str "B"), none, none, none⟩)] []
    ⟨some 5, some (Json.str "A"), none, none, none⟩
    (List.mem_cons_self _ _) rfl (by decide) rfl rfl rfl

/-! ## C2: timeout / write-failure bookkeeping -/

/-- A freshly spawned supervisor: counter 1, no pending calls, shutdown
sender present, nothing written. -/
def freshSup : Supervisor := ⟨1, [], some (), [], false⟩

/-- Claim C2, counterexample.  After a timed-out (or write-failed)
`send_request`, the pending map still holds the entry for the allocated id
1 — `send_request` has no code path that removes it — so the claim that the
entry is deregistered before the error is returned is false on the code. -/
theorem C2_counterexample :
    ((send_request freshSup "thread/start" "\x7b\x7d" 0 SendOutcome.timeout).2
       = Except.error (Error.AppServer "Request timeout"))
    ∧ ((send_request freshSup "thread/start" "\x7b\x7d" 0 SendOutcome.timeout).1.pending
       = [⟨1, 0, false⟩])
    ∧ (((send_request freshSup "thread/start" "\x7b\x7d" 0
          SendOutcome.timeout).1.pending.any (fun e => e.callId == 1)) = true)
    ∧ ((send_request freshSup "thread/start" "\x7b\x7d" 0
          (SendOutcome.writeFail "broken pipe")).1.pending
       = [⟨1, 0, false⟩]) :=
  ⟨rfl, rfl, rfl, rfl⟩

/-- Claim C2 as amended.  On timeout the call returns the timeout error and
on stream write failure the transport error, but the registry entry is NOT
removed: it stays in the map with its receiver dropped.  A response for
that id arriving afterwards removes the entry itself, and its send lands in
a dead channel, so the payload is discarded and the cancelled call is not
resurrected; on write failure nothing was written to stdin. -/
theorem C2_corrected (tok : Nat) (m pj wmsg : String) (v : Json) :
    ((send_request freshSup m pj tok SendOutcome.timeout).2
       = Except.error (Error.AppServer "Request timeout"))
    ∧ ((send_request freshSup m pj tok SendOutcome.timeout).1.pending
       = [⟨1, tok, false⟩])
    ∧ ((send_request freshSup m pj tok (SendOutcome.writeFail wmsg)).2
       = Except.error (Error.AppServer ("Failed to write to stdin: " ++ wmsg)))
    ∧ ((send_request freshSup m pj tok (SendOutcome.writeFail wmsg)).1.pending
       = [⟨1, tok, false⟩])
    ∧ ((send_request freshSup m pj tok (SendOutcome.writeFail wmsg)).1.stdinLines
       = [])
    ∧ (handle_message (some ⟨some 1, some v, none, none, none⟩) [⟨1, tok, false⟩]
       = ([], none, none)) :=
  ⟨rfl, rfl, rfl, rfl, rfl, rfl⟩

/-! ## C3: disconnect does not resolve pending calls -/

/-- Claim C3, counterexample.  With the call for id 5 (token 7) pending,
end-of-stream makes the reader loop emit the disconnected event and stop:
no completion at all is delivered, so the pending call is not completed
with a `Disconnected` error — it is left to its own 30-second timeout. -/
theorem C3_counterexample :
    ((runReader [StdoutItem.eof] [⟨5, 7, true⟩]).completions = [])
    ∧ ((runReader [StdoutItem.eof] [⟨5, 7, true⟩]).pending = [⟨5, 7, true⟩])
    ∧ ¬ (∃ c ∈ (runReader [StdoutItem.eof] [⟨5, 7, true⟩]).completions,
          c.tok = 7) := by
  refine ⟨rfl, rfl, ?_⟩
  rintro ⟨c, hc, -⟩
  rw [show (runReader [StdoutItem.eof] [⟨5, 7, true⟩]).completions = []
      from rfl] at hc
  exact absurd hc (List.not_mem_nil c)

/-- Claim C3 as amended.  On end-of-stream the reader loop emits the
`app-server-disconnected` event and terminates; neither the loop nor
`shutdown` touches the pending map, so pending calls are not resolved with
a `Disconnected` error — each awaiting caller instead fails by its own
30-second timeout. -/
theorem C3_corrected (p : PendingMap) (rest : List StdoutItem)
    (sup : Supervisor) (e : Bool) (m pj : String) (t : Nat) :
    (runReader (StdoutItem.eof :: rest) p
       = ⟨p, [], [("app-server-disconnected", Json.null)]⟩)
    ∧ ((shutdown sup e).1.pending = sup.pending)
    ∧ ((send_request sup m pj t SendOutcome.timeout).2
       = Except.error (Error.AppServer "Request timeout")) := by
  refine ⟨rfl, ?_, rfl⟩
  cases e <;> rfl

/-! ## C4: calls before the handshake -/

/-- Claim C4, counterexample.  A call attempted while no process is
available (the only externally reachable "before `Ready`" state, since
`spawn` completes the handshake before returning the process) fails with
the generic `Error::AppServer("App server not running")`: the error enum of
error.rs has no `NotReady` variant, so no caller can receive a `NotReady`
error. -/
theorem C4_counterexample :
    (command_send_request none "account/read" "\x7b\x7d" 0 SendOutcome.timeout
       = (none, Except.error (Error.AppServer "App server not running")))
    ∧ (errName (Error.AppServer "App server not running") = "AppServer")
    ∧ ("AppServer" ≠ "NotReady") :=
  ⟨rfl, rfl, by decide⟩

/-- Claim C4 as amended.  Before the handshake has completed no
`AppServerProcess` exists: `spawn` fails outright when the `initialize`
call fails, `start_app_server` then stores nothing, and every ordinary
call against the empty state fails with `Error::AppServer("App server not
running")` without any process to write to. -/
theorem C4_corrected (meth pj : String) (t : Nat) (o : SendOutcome)
    (e : Error) (env : Env) (osErr : Option String) (w : WriteOutcome)
    (pth : String) (hok : spawnExe env osErr = Except.ok pth) :
    (command_send_request none meth pj t o
       = (none, Except.error (Error.AppServer "App server not running")))
    ∧ (start_app_server none (Except.error e) = (none, Except.error e))
    ∧ (spawnModel env osErr SendOutcome.timeout w
       = Except.error (Error.AppServer "Request timeout")) := by
  refine ⟨rfl, rfl, ?_⟩
  unfold spawnModel
  rw [hok]
  rfl

/-- An environment where the PATH lookup finds the binary. -/
def envPathHit : Env := ⟨some "/usr/bin/codex", none, fun _ => false⟩

/-- Witness for C4 at concrete inputs. -/
theorem C4_witness :
    (command_send_request none "account/read" "\x7b\x7d" 3 SendOutcome.timeout
       = (none, Except.error (Error.AppServer "App server not running")))
    ∧ (start_app_server none (Except.error (Error.Other "x"))
       = (none, Except.error (Error.Other "x")))
    ∧ (spawnModel envPathHit none SendOutcome.timeout WriteOutcome.ok
       = Except.error (Error.AppServer "Request timeout")) :=
  C4_corrected "account/read" "\x7b\x7d" 3 SendOutcome.timeout
    (Error.Other "x") envPathHit none WriteOutcome.ok "/usr/bin/codex" rfl

/-! ## C5: call-id generation -/

/-- The request counter after `n` calls: it starts at 1 and each
`fetch_add(1)` advances it with `u64` wraparound. -/
def counterAfterCalls : Nat → Nat
  | 0 => 1
  | n + 1 => (counterAfterCalls n + 1) % u64Mod

theorem counterAfterCalls_closed (n : Nat) (h : n + 1 < u64Mod) :
    counterAfterCalls n = n + 1 := by
  induction n with
  | zero => rfl
  | succ k ih =>
    rw [counterAfterCalls, ih (Nat.lt_of_succ_lt h)]
    exact Nat.mod_eq_of_lt h

/-- Claim C5.  The id handed out to the `n`-th call is the counter value
`counterAfterCalls n`; the sequence starts at 1 and, for the whole range of
64-bit arithmetic (before the `AtomicU64` would wrap), is strictly
increasing, so no id recurs; and inserting a registration keeps the pending
map's keys pairwise distinct, so at most one pending entry per id exists at
any time. -/
theorem C5_callid_invariants :
    (counterAfterCalls 0 = 1)
    ∧ (∀ (sup : Supervisor) (m pj : String) (t : Nat) (o : SendOutcome),
        (send_request sup m pj t o).1.requestCounter
          = (sup.requestCounter + 1) % u64Mod)
    ∧ (∀ i j, i < j → j + 1 < u64Mod →
        counterAfterCalls i < counterAfterCalls j)
    ∧ (∀ (p : PendingMap) (e : PendingEntry),
        keysNoDup p → keysNoDup (p.insertEntry e)) := by
  refine ⟨rfl, ?_, ?_, ?_⟩
  · intro sup m pj t o
    cases o <;> rfl
  · intro i j hij hj
    rw [counterAfterCalls_closed i (lt_trans (Nat.succ_lt_succ hij) hj),
        counterAfterCalls_closed j hj]
    exact Nat.succ_lt_succ hij
  · intro p e hnd
    exact keysNoDup_insertEntry p e hnd

/-- Witness for C5 at concrete inputs. -/
theorem C5_witness :
    (counterAfterCalls 0 < counterAfterCalls 1)
    ∧ keysNoDup (PendingMap.insertEntry [⟨1, 0, true⟩] ⟨2, 1, true⟩) :=
  ⟨C5_callid_invariants.2.2.1 0 1 (by decide) (by norm_num [u64Mod]),
   C5_callid_invariants.2.2.2 [⟨1, 0, true⟩] ⟨2, 1, true⟩ (by decide)⟩

/-! ## C6: server requests and respond -/

/-- Whether an event payload carries a `_requestId` binding at all. -/
def payloadHasReqId : Json → Bool
  | .obj fs => fs.any (fun kv => kv.1 == "_requestId")
  | _ => false

/-- Claim C6, counterexample.  A server request whose `params` is not a
JSON object (here an array) is forwarded unchanged: the `if let Object`
guard in `handle_message` skips the insert, so the emitted payload carries
no request id at all, contrary to the claim's "for every inbound line with
both id and method present". -/
theorem C6_counterexample :
    (handle_message
        (some ⟨some 7, none, none, some "exec/approval", some (Json.arr [Json.num 1])⟩) []
       = ([], none, some ("exec-approval", Json.arr [Json.num 1])))
    ∧ (payloadHasReqId (Json.arr [Json.num 1]) = false) :=
  ⟨rfl, rfl⟩

/-- Claim C6 as amended.  For a server request whose `params` is a JSON
object (or absent, defaulting to an empty object), the emitted event is
named by the method with `/` replaced by `-` and its payload is the params
object with the numeric id inserted under `_requestId`; `params` of any
other JSON shape is forwarded unchanged, without the id.  A later
`send_response(request_id, result)` writes exactly one newline-terminated
line `{"id": request_id, "result": result}` to the subprocess stdin. -/
theorem C6_corrected (i : Nat) (meth : String) (fs : List (String × Json))
    (r : Option Json) (er : Option JsonRpcError) (p : PendingMap)
    (sup : Supervisor) (rid : Nat) (res : Json) :
    (handle_message (some ⟨some i, r, er, some meth, some (Json.obj fs)⟩) p
       = (p, none,
          some (mapSlashDash meth, Json.obj (objInsert fs "_requestId" (Json.num i)))))
    ∧ (handle_message (some ⟨some i, r, er, some meth, none⟩) p
       = (p, none, some (mapSlashDash meth, Json.obj [("_requestId", Json.num i)])))
    ∧ ((send_response sup rid res WriteOutcome.ok).1.stdinLines
       = sup.stdinLines ++ [responseLine rid res])
    ∧ ((send_response sup rid res WriteOutcome.ok).2 = Except.ok ())
    ∧ (responseLine 42 (Json.obj [("decision", Json.str "accept")])
       = "\x7b\"id\":42,\"result\":\x7b\"decision\":\"accept\"\x7d\x7d\n")
    ∧ (mapSlashDash "approval/request" = "approval-request") :=
  ⟨rfl, rfl, rfl, rfl, rfl, rfl⟩

/-! ## C7: malformed lines are absorbed -/

/-- Claim C7.  A line that fails JSON parsing, or decodes with neither id
nor method, is dropped: `handle_message` leaves the pending map untouched,
delivers no completion, emits no event, and the reader loop continues with
the remaining input exactly as if the line had not been there. -/
theorem C7_malformed_absorbed (p : PendingMap) (rest : List StdoutItem)
    (m : JsonRpcMessage) (hid : m.id = none) (hmeth : m.method = none) :
    (runReader (StdoutItem.line none :: rest) p = runReader rest p)
    ∧ (runReader (StdoutItem.line (some m) :: rest) p = runReader rest p)
    ∧ (handle_message none p = (p, none, none))
    ∧ (handle_message (some m) p = (p, none, none)) := by
  obtain ⟨mid, mres, merr, mmeth, mpar⟩ := m
  simp only at hid hmeth
  subst hid; subst hmeth
  exact ⟨rfl, rfl, rfl, rfl⟩

/-- Witness for C7: a parse failure and the shape `{"result":1}` (id and
method both absent), in front of an empty remainder, with one call
pending. -/
theorem C7_witness :
    (runReader [StdoutItem.line none] [⟨3, 9, true⟩]
       = runReader [] [⟨3, 9, true⟩])
    ∧ (runReader [StdoutItem.line (some ⟨none, some (Json.num 1), none, none, none⟩)]
         [⟨3, 9, true⟩] = runReader [] [⟨3, 9, true⟩])
    ∧ (handle_message none [⟨3, 9, true⟩] = ([⟨3, 9, true⟩], none, none))
    ∧ (handle_message (some ⟨none, some (Json.num 1), none, none, none⟩)
         [⟨3, 9, true⟩] = ([⟨3, 9, true⟩], none, none)) :=
  C7_malformed_absorbed [⟨3, 9, true⟩] []
    ⟨none, some (Json.num 1), none, none, none⟩ rfl rfl

/-! ## C8: binary location and spawn errors -/

/-- An environment with no binary anywhere. -/
def envNoBin : Env := ⟨none, some "/home/user", fun _ => false⟩

/-- An environment where only `~/.cargo/bin/codex` exists. -/
def envCargoHit : Env :=
  ⟨none, some "/home/user", fun s => s == "/home/user/.cargo/bin/codex"⟩

/-- Modelled from the spec: the spec's §4.1 search order begins with an
explicit configured path before the PATH lookup and the well-known
directories.  `AppServerProcess::spawn` and `find_codex_binary` take no
configuration at all, so this step exists only in the spec; this definition
follows the spec's words for comparison with the code's search. -/
def find_codex_binary_specOrdered (explicitPath : Option String) (env : Env) :
    Except Error String :=
  match explicitPath with
  | some p => Except.ok p
  | none => find_codex_binary env

/-- Claim C8, counterexample.  In an environment where nothing resolves,
the spec-ordered search with a configured explicit path succeeds with that
path, while the code's `find_codex_binary` — which has no explicit-path
step — fails; and the "not found" and "spawn failed" errors are the same
`AppServer` variant of the error enum, not two distinct error kinds. -/
theorem C8_counterexample :
    (find_codex_binary_specOrdered (some "/custom/codex") envNoBin
       = Except.ok "/custom/codex")
    ∧ (find_codex_binary envNoBin
       = Except.error (Error.AppServer "Codex CLI not found. Please install it first."))
    ∧ (errName (Error.AppServer "Codex CLI not found. Please install it first.")
       = errName (Error.AppServer "Failed to spawn app-server: boom")) :=
  ⟨rfl, rfl, rfl⟩

/-- Claim C8 as amended.  `find_codex_binary` searches PATH first and then
the four well-known install directories (there is no explicit configured
path step); when none resolve, spawn fails with
`AppServer("Codex CLI not found. Please install it first.")` and no process
value exists; an OS-level spawn failure yields the same `AppServer` variant
with the distinct message `"Failed to spawn app-server: …"`. -/
theorem C8_corrected (envA envB : Env) (p hm m : String)
    (h1 : envA.whichCodex = some p)
    (h2 : envB.whichCodex = none) (h3 : envB.homeDir = some hm)
    (h4 : (commonPaths hm).find? envB.pathExists = none) :
    (find_codex_binary envA = Except.ok p)
    ∧ (find_codex_binary envB
       = Except.error (Error.AppServer "Codex CLI not found. Please install it first."))
    ∧ (spawnExe envB none
       = Except.error (Error.AppServer "Codex CLI not found. Please install it first."))
    ∧ (spawnExe envA (some m)
       = Except.error (Error.AppServer ("Failed to spawn app-server: " ++ m)))
    ∧ (∀ (envC : Env) (q : String), envC.whichCodex = none →
        envC.homeDir = some hm →
        (commonPaths hm).find? envC.pathExists = some q →
        find_codex_binary envC = Except.ok q) := by
  refine ⟨?_, ?_, ?_, ?_, ?_⟩
  · simp [find_codex_binary, h1]
  · simp [find_codex_binary, h2, h3, h4]
  · simp [spawnExe, find_codex_binary, h2, h3, h4]
  · simp [spawnExe, find_codex_binary, h1]
  · intro envC q hc1 hc2 hc3
    simp [find_codex_binary, hc1, hc2, hc3]

/-- Witness for C8 at concrete environments: PATH hit, nothing found,
OS spawn failure, and a `~/.cargo/bin` hit. -/
theorem C8_witness :
    (find_codex_binary envPathHit = Except.ok "/usr/bin/codex")
    ∧ (find_codex_binary envNoBin
       = Except.error (Error.AppServer "Codex CLI not found. Please install it first."))
    ∧ (spawnExe envNoBin none
       = Except.error (Error.AppServer "Codex CLI not found. Please install it first."))
    ∧ (spawnExe envPathHit (some "boom")
       = Except.error (Error.AppServer ("Failed to spawn app-server: " ++ "boom")))
    ∧ (find_codex_binary envCargoHit = Except.ok "/home/user/.cargo/bin/codex") := by
  have h := C8_corrected envPathHit envNoBin "/usr/bin/codex" "/home/user" "boom"
    rfl rfl rfl rfl
  exact ⟨h.1, h.2.1, h.2.2.1, h.2.2.2.1,
         h.2.2.2.2 envCargoHit "/home/user/.cargo/bin/codex" rfl rfl rfl⟩

/-! ## C9: shutdown -/

/-- Claim C9, counterexample.  `shutdown` returns `Ok(())` whether the
process exited within the grace period or had to be force-killed: its
return value is identical in both cases and carries no exit status and no
forced-kill report. -/
theorem C9_counterexample :
    ((shutdown freshSup false).2.killed = true)
    ∧ ((shutdown freshSup false).2.ret = (shutdown freshSup true).2.ret)
    ∧ ((shutdown freshSup false).2.ret = Except.ok ()) :=
  ⟨rfl, rfl, rfl⟩

/-- Claim C9 as amended.  `shutdown` signals the reader loop (when the
sender is still present), shuts stdin down, races the child's exit against
the 2-second grace period and kills on expiry, and always returns `Ok(())`
— the exit status is only logged.  A second call finds the shutdown sender
taken, so it signals nothing and, the child having exited, kills nothing. -/
theorem C9_corrected (sup : Supervisor) (exits : Bool) :
    ((shutdown sup exits).2.signaledReader = sup.shutdownTx.isSome)
    ∧ ((shutdown sup exits).2.stdinShut = true)
    ∧ ((shutdown sup exits).2.killed = !exits)
    ∧ ((shutdown sup exits).2.ret = Except.ok ())
    ∧ ((shutdown sup exits).1.shutdownTx = none)
    ∧ ((shutdown (shutdown sup exits).1 true).2.signaledReader = false)
    ∧ ((shutdown (shutdown sup exits).1 true).2.killed = false) := by
  cases exits <;> exact ⟨rfl, rfl, rfl, rfl, rfl, rfl, rfl⟩

/-! ## C10: response-field defaults -/

/-- Claim C10.  An inbound line with an id, no method, and neither result
nor error is handled as a successful response: the matching pending call is
fulfilled with JSON `null`.  When both an error object and a result are
present, the error wins and the result is ignored. -/
theorem C10_response_defaults (p : PendingMap) (e : PendingEntry)
    (pp : Option Json) (hmem : e ∈ p) (hnd : keysNoDup p)
    (halive : e.alive = true) (v : Json) (er : JsonRpcError) :
    ((handle_message (some ⟨some e.callId, none, none, none, pp⟩) p).2.1
       = some ⟨e.tok, Except.ok Json.null⟩)
    ∧ ((handle_message (some ⟨some e.callId, some v, some er, none, pp⟩) p).2.1
       = some ⟨e.tok, Except.error (Error.AppServer (rpcErrorText er))⟩) := by
  obtain ⟨p', hp'⟩ := removeEntry_self p e hnd hmem
  constructor
  · simp [handle_message, hp', responseOutcome, halive]
  · simp [handle_message, hp', responseOutcome, halive]

/-- Witness for C10: the line `{"id":9}` fulfils the pending call for id 9
with `null`; a line carrying both an error and a result completes it with
the error. -/
theorem C10_witness :
    ((handle_message (some ⟨some 9, none, none, none, none⟩) [⟨9, 3, true⟩]).2.1
       = some ⟨3, Except.ok Json.null⟩)
    ∧ ((handle_message
          (some ⟨some 9, some (Json.str "x"), some ⟨-32600, "bad", none⟩, none, none⟩)
          [⟨9, 3, true⟩]).2.1
       = some ⟨3, Except.error (Error.AppServer (rpcErrorText ⟨-32600, "bad", none⟩))⟩) :=
  C10_response_defaults [⟨9, 3, true⟩] ⟨9, 3, true⟩ none
    (List.mem_cons_self _ _) (by decide) rfl (Json.str "x") ⟨-32600, "bad", none⟩

end CodexDesktop
